import Mathlib

/- Shallow embedding of the python-pods pod client (src/src/pythonpods.py).
   Python dicts with string keys are modelled as association lists:
   setAttr models dict assignment and setattr (update in place, or append),
   lookupKey models dict.get (first match; keys are unique in a dict),
   removeKey models dict.pop. -/

namespace PyPods

def lookupKey {β : Type} : List (String × β) → String → Option β
  | [], _ => none
  | (k, v) :: rest, key => if k = key then some v else lookupKey rest key

def setAttr {β : Type} : List (String × β) → String → β → List (String × β)
  | [], key, v => [(key, v)]
  | (k, w) :: rest, key, v =>
    if k = key then (key, v) :: rest else (k, w) :: setAttr rest key v

def removeKey {β : Type} : List (String × β) → String → List (String × β)
  | [], _ => []
  | (k, w) :: rest, key =>
    if k = key then removeKey rest key else (k, w) :: removeKey rest key

theorem lookupKey_setAttr_self {β : Type} (m : List (String × β)) (k : String) (v : β) :
    lookupKey (setAttr m k v) k = some v := by
  induction m with
  | nil => simp [setAttr, lookupKey]
  | cons p rest ih =>
    obtain ⟨k1, w⟩ := p
    by_cases h : k1 = k
    · simp [setAttr, lookupKey, h]
    · simp [setAttr, lookupKey, h, ih]

theorem lookupKey_setAttr_ne {β : Type} (m : List (String × β)) (k k1 : String) (v : β)
    (h : k1 ≠ k) : lookupKey (setAttr m k v) k1 = lookupKey m k1 := by
  induction m with
  | nil => simp [setAttr, lookupKey, Ne.symm h]
  | cons p rest ih =>
    obtain ⟨k2, w⟩ := p
    by_cases h2 : k2 = k
    · subst h2
      simp [setAttr, lookupKey, Ne.symm h]
    · simp [setAttr, lookupKey, h2, ih]

theorem setAttr_setAttr_self {β : Type} (m : List (String × β)) (k : String) (v w : β) :
    setAttr (setAttr m k v) k w = setAttr m k w := by
  induction m with
  | nil => simp [setAttr]
  | cons p rest ih =>
    obtain ⟨k1, u⟩ := p
    by_cases h : k1 = k <;> simp [setAttr, h, ih]

theorem setAttr_self_of_lookup {β : Type} (m : List (String × β)) (k : String) (v : β)
    (h : lookupKey m k = some v) : setAttr m k v = m := by
  induction m with
  | nil => simp [lookupKey] at h
  | cons p rest ih =>
    obtain ⟨k1, w⟩ := p
    by_cases h1 : k1 = k
    · subst h1
      simp [lookupKey] at h
      simp [setAttr, h]
    · simp [lookupKey, h1] at h
      simp [setAttr, h1, ih h]

theorem lookupKey_removeKey_self {β : Type} (m : List (String × β)) (k : String) :
    lookupKey (removeKey m k) k = none := by
  induction m with
  | nil => simp [removeKey, lookupKey]
  | cons p rest ih =>
    obtain ⟨k1, w⟩ := p
    by_cases h : k1 = k <;> simp [removeKey, lookupKey, h, ih]

theorem removeKey_of_lookup_none {β : Type} (m : List (String × β)) (k : String)
    (h : lookupKey m k = none) : removeKey m k = m := by
  induction m with
  | nil => simp [removeKey]
  | cons p rest ih =>
    obtain ⟨k1, w⟩ := p
    by_cases h1 : k1 = k
    · simp [lookupKey, h1] at h
    · simp [lookupKey, h1] at h
      simp [removeKey, h1, ih h]

/- Decoded payload values. Python values flowing through the payload codecs:
   None, booleans, integers, strings, lists and dicts. vnil models Python None. -/

inductive Val where
  | vnil
  | vbool (b : Bool)
  | vint (n : Int)
  | vstr (s : String)
  | vlist (items : List Val)
  | vmap (entries : List (String × Val))

/- Python truthiness on decoded values: None, False, 0, empty string, empty
   list and empty dict are falsy. Used by PodError where data defaults via
   the expression data or empty-dict. -/
def Val.falsy : Val → Bool
  | .vnil => true
  | .vbool b => !b
  | .vint n => n == 0
  | .vstr s => s == ""
  | .vlist items => items.isEmpty
  | .vmap entries => entries.isEmpty

def Val.isNil : Val → Bool
  | .vnil => true
  | _ => false

/- PodError.__init__ stores data or an empty dict (self.data = data or ..). -/
def podErrorData (d : Val) : Val :=
  if d.falsy then .vmap [] else d

/- Result of the payload read function (read_fn in processor): the decode
   either raises (fail) or yields a value, which may be Python None (vnil). -/
inductive ReadResult where
  | fail
  | ok (v : Val)

/- A raw var descriptor from a bencode envelope, as consumed by
   bencode_to_vars (pythonpods.py lines 310-342). Fields mirror
   get_string / get_maybe_string / get_maybe_boolean reads; every var
   descriptor carries a name on the wire. -/
structure VarDesc where
  name : String
  isAsync : Option String := none
  code : Option String := none
  meta : Option String := none
  argMeta : Option Bool := none
deriving DecidableEq

/- What bencode_to_vars binds a var name to: either the inline code string,
   or an invoker closure capturing the qualified name, the async flag and
   arg-meta (the closure body calls invoke with exactly these). -/
inductive VarImpl where
  | code (src : String)
  | invoker (qualifiedName : String) (isAsync : Bool) (argMeta : Option Bool)
deriving DecidableEq

/- Python f-string rendering of an optional string: None prints as None. -/
def pyStr : Option String → String
  | some s => s
  | none => "None"

/- bencode_to_vars (pythonpods.py lines 310-342): builds a dict from var name
   to code string or invoker closure. The parsed var_meta local of the source
   is computed but never used afterwards, so it is not modelled. The async
   flag is true exactly when the field is the string true. -/
def bencodeToVars (nsNameStr : Option String) (varsList : List VarDesc) :
    List (String × VarImpl) :=
  varsList.foldl (fun result var =>
    match var.code with
    | some c => setAttr result var.name (.code c)
    | none =>
      setAttr result var.name
        (.invoker (pyStr nsNameStr ++ "/" ++ var.name)
          (var.isAsync == some "true") var.argMeta)) []

/- The namespace dict the processor builds from a reply that carries a vars
   key (pythonpods.py lines 489-496): name is get_string(reply, "name"). -/
structure NsObj where
  name : Option String
  vars : List (String × VarImpl)

/- A value delivered to a future by Future.set_result: a decoded payload,
   a namespace dict, or Python None (set_result(None) in the done branch). -/
inductive DVal where
  | pynone
  | val (v : Val)
  | ns (n : NsObj)

/- State of a concurrent.futures.Future: pending, or settled with a result
   (set_result) or an exception (set_exception with a PodError). -/
inductive FutState where
  | pending
  | result (r : DVal)
  | exc (msg : String) (data : Val)

/- Future.done() -/
def futIsDone : FutState → Bool
  | .pending => false
  | _ => true

/- Future.set_result: succeeds only on a pending future; on an already
   settled future concurrent.futures raises InvalidStateError, modelled as
   none (documented stdlib behaviour since Python 3.8). -/
def futSetResult : FutState → DVal → Option FutState
  | .pending, r => some (.result r)
  | _, _ => none

/- Future.set_exception: same settle-once discipline as set_result. -/
def futSetException : FutState → String → Val → Option FutState
  | .pending, msg, data => some (.exc msg data)
  | _, _, _ => none

/- One call made on a callback-dict waiter by the processor. -/
inductive CbEvent where
  | onSuccess (v : Option Val)
  | onError (msg : String) (data : Val)
  | onDone

/- The waiter registered in chans under a correlation id: either a
   concurrent.futures.Future or a user-supplied handlers dict with optional
   success, error and done callbacks (the processor reads exactly those
   three keys). The events list records the calls made on the handlers,
   in order. -/
inductive Chan where
  | future (fst : FutState)
  | callbacks (hasSuccess hasError hasDone : Bool) (events : List CbEvent)

/- One reply envelope as the processor reads it: each field is the result of
   the corresponding get on the decoded bencode dict (byte strings already
   decoded to strings; a missing key is none). status is the raw list of
   status strings. nsVars is some exactly when the vars key is present. -/
structure Envelope where
  id : Option String := none
  value : Option String := none
  status : List String := []
  exMessage : Option String := none
  exData : Option String := none
  nsName : Option String := none
  nsVars : Option (List VarDesc) := none
  out : Option String := none
  err : Option String := none

/- Writes and flushes performed on the pod out and err sinks, in order. -/
inductive SinkEv where
  | outWrite (s : String)
  | outFlush
  | errWrite (s : String)
  | errFlush
deriving DecidableEq

/- Observable state carried across processor iterations: the chans dict of
   the pod (correlation id to waiter) and the chronological sink event log. -/
structure ProcState where
  chans : List (String × Chan)
  sink : List SinkEv

/- Result of one loop iteration: either the loop continues with the updated
   state, or an exception escaped the iteration (InvalidStateError from a
   settled Future) and the surrounding try/except prints Processor error;
   the processor thread then returns. -/
inductive StepResult where
  | next (st : ProcState)
  | raised (st : ProcState)

def StepResult.stateOf : StepResult → ProcState
  | .next st => st
  | .raised st => st

def StepResult.isNext : StepResult → Bool
  | .next _ => true
  | .raised _ => false

/- The value decode block (pythonpods.py lines 462-470): a missing value
   key leaves both the exception flag clear and value empty; a decode raise
   sets the exception flag; a decoded Python None leaves value empty. -/
def decodeValueEntry (readFn : String → ReadResult) : Option String → Bool × Option Val
  | none => (false, none)
  | some s =>
    match readFn s with
    | .fail => (true, none)
    | .ok v => (false, if v.isNil then none else some v)

/- The ex-data decode (lines 482-487): missing or empty string keeps the
   empty dict default, and a decode raise falls back to the empty dict. -/
def decodeExData (readFn : String → ReadResult) : Option String → Val
  | none => .vmap []
  | some s =>
    if s = "" then .vmap []
    else
      match readFn s with
      | .fail => .vmap []
      | .ok v => v

/- The namespace build (lines 489-496), when the vars key is present. -/
def envNamespace (reply : Envelope) : Option NsObj :=
  match reply.nsVars with
  | none => none
  | some varsList => some ⟨reply.nsName, bencodeToVars reply.nsName varsList⟩

/- The out and err forwarding (lines 511-521): a truthy (present and
   non-empty) out string is written to the out sink and flushed, then the
   same for err. -/
def sinkEvents (reply : Envelope) : List SinkEv :=
  (match reply.out with
   | some s => if s ≠ "" then [.outWrite s, .outFlush] else []
   | none => []) ++
  (match reply.err with
   | some s => if s ≠ "" then [.errWrite s, .errFlush] else []
   | none => [])

/- The main response block for a future waiter (lines 524-531): entered
   when a value key was present, an error holds, or a namespace was built;
   error settles with a PodError, else a non-None value settles with it,
   else a namespace settles with it. none means the Future raised
   InvalidStateError because it was already settled. -/
def deliverFuture (fst : FutState) (hasMain error : Bool) (value : Option Val)
    (nspace : Option NsObj) (msg : String) (data : Val) : Option FutState :=
  if hasMain then
    if error then futSetException fst msg data
    else
      match value with
      | some v => futSetResult fst (.val v)
      | none =>
        match nspace with
        | some n => futSetResult fst (.ns n)
        | none => some fst
  else some fst

/- The done block for a future waiter (lines 538-541): on done without
   error, a still pending future is settled with None. -/
def finishFuture (fst1 : FutState) (isDone error : Bool) : FutState :=
  if isDone && !error then
    if futIsDone fst1 then fst1 else .result .pynone
  else fst1

/- The main response block for a handlers dict (lines 532-536): success
   handler on no error, else error handler, each only when present. -/
def deliverCallbacks (hs he : Bool) (evs : List CbEvent) (hasMain error : Bool)
    (value : Option Val) (msg : String) (data : Val) : List CbEvent :=
  if hasMain then
    if !error && hs then evs ++ [.onSuccess value]
    else if error && he then evs ++ [.onError msg data]
    else evs
  else evs

/- The done block for a handlers dict (lines 542-543). -/
def finishCallbacks (hd : Bool) (evs1 : List CbEvent) (isDone error : Bool) :
    List CbEvent :=
  if isDone && !error then
    if hd then evs1 ++ [.onDone] else evs1
  else evs1

/- Named components of one processor iteration (lines 459-496), so that
   the step function below is their composition. excFlag and valueOf are
   the two locals set by the value decode block; errFlag and doneFlag are
   the error and done computations over the status set; msgOf and dataOf
   are the ex-message and ex-data extraction guarded by error. -/
def excFlag (readFn : String → ReadResult) (reply : Envelope) : Bool :=
  (decodeValueEntry readFn reply.value).1

def valueOf (readFn : String → ReadResult) (reply : Envelope) : Option Val :=
  (decodeValueEntry readFn reply.value).2

def errFlag (readFn : String → ReadResult) (reply : Envelope) : Bool :=
  excFlag readFn reply || decide ("error" ∈ reply.status)

def doneFlag (readFn : String → ReadResult) (reply : Envelope) : Bool :=
  errFlag readFn reply || excFlag readFn reply || decide ("done" ∈ reply.status)

def msgOf (readFn : String → ReadResult) (reply : Envelope) : String :=
  if errFlag readFn reply then reply.exMessage.getD "" else ""

def dataOf (readFn : String → ReadResult) (reply : Envelope) : Val :=
  if errFlag readFn reply then decodeExData readFn reply.exData else .vmap []

/- The entry condition of the main response block (line 524): a value key
   present, or an error, or a namespace reply. -/
def hasMainFlag (readFn : String → ReadResult) (reply : Envelope) : Bool :=
  reply.value.isSome || errFlag readFn reply || (envNamespace reply).isSome

/- One iteration of the processor while loop on one reply envelope
   (pythonpods.py lines 454-543), transcribed in source order: read id and
   value, decode value, compute error and done from the status set and the
   decode exception, extract ex-message and ex-data when error, build the
   namespace dict when a vars key is present, look the waiter up in chans
   and bail out (continue) when the id is missing or unknown, forward out
   and err, then deliver to the waiter and handle done. readFn is the
   payload codec reader chosen from the pod format. -/
def processStep (readFn : String → ReadResult) (st : ProcState) (reply : Envelope) :
    StepResult :=
  match reply.id with
  | none => .next st
  | some msgId =>
    match lookupKey st.chans msgId with
    | none => .next st
    | some chan =>
      let sink1 := st.sink ++ sinkEvents reply
      match chan with
      | .future fst =>
        match deliverFuture fst (hasMainFlag readFn reply) (errFlag readFn reply)
            (valueOf readFn reply) (envNamespace reply) (msgOf readFn reply)
            (podErrorData (dataOf readFn reply)) with
        | none => .raised ⟨st.chans, sink1⟩
        | some fst1 =>
          .next ⟨setAttr st.chans msgId
            (.future (finishFuture fst1 (doneFlag readFn reply) (errFlag readFn reply))),
            sink1⟩
      | .callbacks hs he hd evs =>
        .next ⟨setAttr st.chans msgId (.callbacks hs he hd
          (finishCallbacks hd
            (deliverCallbacks hs he evs (hasMainFlag readFn reply) (errFlag readFn reply)
              (valueOf readFn reply) (msgOf readFn reply) (dataOf readFn reply))
            (doneFlag readFn reply) (errFlag readFn reply))), sink1⟩

/- Result of running the processor on a whole reply stream: the final state
   and whether the loop was terminated by an escaped exception (in which
   case the remaining envelopes are never read). -/
structure LoopResult where
  state : ProcState
  crashed : Bool

/- The processor while loop over the finite stream of envelopes the pod
   emits before end of stream. -/
def processLoop (readFn : String → ReadResult) (st : ProcState) :
    List Envelope → LoopResult
  | [] => ⟨st, false⟩
  | e :: rest =>
    match processStep readFn st e with
    | .next st1 => processLoop readFn st1 rest
    | .raised st1 => ⟨st1, true⟩

/- invoke (pythonpods.py lines 344-384): allocate a fresh correlation id,
   register either the caller handlers dict or a fresh pending Future under
   it in chans, and write the invoke envelope. The codec write of args and
   the blocking wait on the future are outside this registration step. -/
structure InvokeMessage where
  id : String
  op : String
  var : String
  args : String

def invokeRegister (chans : List (String × Chan)) (msgId : String)
    (handlers : Option Chan) : List (String × Chan) × Chan :=
  let chan := match handlers with
    | some h => h
    | none => .future .pending
  (setAttr chans msgId chan, chan)

def invokeMessage (msgId podVar argsStr : String) : InvokeMessage :=
  ⟨msgId, "invoke", podVar, argsStr⟩

/- A pod dict as relevant to destruction (pythonpods.py lines 558-592 and
   the dict literal built by load_pod at lines 864-877). podSlashId is the
   value the dict holds under the key pod/id; the load_pod literal has no
   such key, so load_pod pods carry none there. destroy performs no write
   to the pod dict itself: in particular chans is never touched. -/
structure PodObj where
  podId : String
  chans : List (String × Chan)
  ops : List String
  namespaces : List String
  hasRemoveNs : Bool
  podSlashId : Option String := none

/- The pod dict constructed by load_pod (lines 864-877): the literal sets
   process, pod_spec, stdin, stdout, chans, format, ops, out, err,
   remove_ns, readers and pod_id, and never a pod/id key. -/
def mkLoadPodObj (podId : String) (chans : List (String × Chan)) (ops : List String)
    (namespaces : List String) (hasRemoveNs : Bool) : PodObj :=
  { podId := podId, chans := chans, ops := ops, namespaces := namespaces,
    hasRemoveNs := hasRemoveNs, podSlashId := none }

/- Argument passed to destroy: either a pod id string or a pod dict. -/
inductive DestroySpec where
  | byId (podId : String)
  | byDict (pod : PodObj)

/- get_pod_id_from_spec (lines 548-552): a dict yields its pod/id entry
   (absent on load_pod pods), anything else passes through unchanged. -/
def getPodIdFromSpec : DestroySpec → Option String
  | .byId s => some s
  | .byDict d => d.podSlashId

/- lookup_pod (lines 554-556) via pods.get: the process wide registry maps
   pod id strings to pod dicts; load_pod never registers a None key, so a
   missing id looks up to nothing. -/
def lookupPod (reg : List (String × PodObj)) : Option String → Option PodObj
  | none => none
  | some pid => lookupKey reg pid

/- pods.pop(pod_id, None) (line 591). -/
def popPod (reg : List (String × PodObj)) : Option String → List (String × PodObj)
  | none => reg
  | some pid => removeKey reg pid

/- Externally visible actions destroy takes, in order. -/
inductive DestroyAction where
  | unregisterModules (podId : String)
  | sendShutdown
  | terminateProcess
  | removeNs (nsName : String)
deriving DecidableEq

/- destroy_pod (lines 558-572): send a shutdown envelope and wait when the
   pod advertises the shutdown op, else terminate the process. The
   terminate fallback on a failed wait is a runtime failure path outside
   the state model. -/
def destroyPodActions (pod : PodObj) : List DestroyAction :=
  if "shutdown" ∈ pod.ops then [.sendShutdown] else [.terminateProcess]

structure DestroyResult where
  registry : List (String × PodObj)
  actions : List DestroyAction
  podAfter : Option PodObj

/- destroy (lines 574-592): resolve the pod id from the argument, look the
   pod up; when found, unregister its modules, shut the process down and
   run the remove_ns hook over the namespace names; finally pop the id from
   the registry. No statement in destroy (or destroy_pod) writes to the pod
   dict, so the looked-up pod object, chans included, is returned unchanged
   as podAfter. -/
def destroy (reg : List (String × PodObj)) (spec : DestroySpec) : DestroyResult :=
  match getPodIdFromSpec spec with
  | none => { registry := popPod reg none, actions := [], podAfter := none }
  | some pid =>
    match lookupKey reg pid with
    | some pod =>
      { registry := popPod reg (some pid),
        actions := .unregisterModules pid :: destroyPodActions pod ++
          (if pod.hasRemoveNs then pod.namespaces.map .removeNs else []),
        podAfter := some pod }
    | none => { registry := popPod reg (some pid), actions := [], podAfter := none }

/- read_port (pythonpods.py lines 404-414), one poll of the port file:
   when the file is absent the loop sleeps and retries; when present, its
   stripped text is taken; the guard content.endswith newline or content is
   the truthiness test on the stripped text (the endswith arm can never
   hold after strip); int() parsing of the stripped text is modelled with
   String.toInt?, and a parse failure falls through to another retry. -/
def readPortStep (content : Option String) : Option Int :=
  match content with
  | none => none
  | some raw =>
    let c := raw.trim
    if c.endsWith "\n" || c ≠ "" then
      match c.trim.toInt? with
      | some p => some p
      | none => none
    else none

/- The while True loop of read_port, run for a bounded number of polls over
   the sequence of port file observations: some port when a poll succeeds,
   none when the budget of polls is exhausted with the loop still spinning.
   The source loop has no other exit: no child liveness check, no raise. -/
def readPortFuel : Nat → (Nat → Option String) → Option Int
  | 0, _ => none
  | n + 1, polls =>
    match readPortStep (polls 0) with
    | some p => some p
    | none => readPortFuel n (fun k => polls (k + 1))

/- A raw namespace descriptor from the describe reply, as read by load_pod
   and bencode_to_namespace: name is get_string (none when missing). -/
structure NsRaw where
  name : Option String := none
  vars : List VarDesc := []
  defer : Option String := none
deriving DecidableEq

/- The pod id computation in load_pod (lines 854-861): take
   get_string(first-namespace, name) when the namespaces list is nonempty,
   then replace a falsy result (missing name or empty string) by a fresh
   uuid from next_id(). -/
def computePodId (namespacesRaw : List NsRaw) (freshUuid : String) : String :=
  let podId : Option String :=
    match namespacesRaw with
    | [] => none
    | ns :: _ => ns.name
  match podId with
  | none => freshUuid
  | some n => if n = "" then freshUuid else n

/- Python str.replace with single character arguments is a character wise
   map over the string. -/
def replaceChar (a b : Char) (s : String) : String :=
  String.mk (s.data.map (fun c => if c = a then b else c))

/- namespace_to_module_name (lines 76-79): dots then hyphens become
   underscores. -/
def namespaceToModuleName (nsName : String) : String :=
  replaceChar '-' '_' (replaceChar '.' '_' nsName)

/- The python_name alias computed per var (line 104). -/
def pythonName (funcName : String) : String :=
  replaceChar '-' '_' funcName

/- A module attribute value: one of the three string metadata attributes
   set first, or a bound pod var. -/
inductive ModAttr where
  | meta (s : String)
  | varAttr (f : VarImpl)
deriving DecidableEq

structure ModuleObj where
  attrs : List (String × ModAttr)
deriving DecidableEq

/- The per var binding step in expose_namespace_as_module (lines 99-106):
   setattr under the original name, then under the underscored alias when
   it differs. -/
def bindVar (attrs : List (String × ModAttr)) (funcName : String) (f : VarImpl) :
    List (String × ModAttr) :=
  let a1 := setAttr attrs funcName (.varAttr f)
  let pn := pythonName funcName
  if pn ≠ funcName then setAttr a1 pn (.varAttr f) else a1

/- expose_namespace_as_module (lines 81-119): build the module, set the
   three metadata attributes, bind every var under its original and aliased
   names in dict order, and register the module in sys.modules under the
   converted module name. The loaded_namespaces bookkeeping and the prints
   carry no state the claims touch and are not modelled. -/
def exposeNamespaceAsModule (sysModules : List (String × ModuleObj)) (podId : String)
    (nsName : String) (nsVars : List (String × VarImpl)) :
    List (String × ModuleObj) × String × ModuleObj :=
  let moduleName := namespaceToModuleName nsName
  let attrs0 : List (String × ModAttr) :=
    setAttr (setAttr (setAttr [] "__doc__" (.meta ("Pod namespace: " ++ nsName)))
      "__pod_namespace__" (.meta nsName)) "__pod_id__" (.meta podId)
  let attrs := nsVars.foldl (fun acc p => bindVar acc p.1 p.2) attrs0
  let m : ModuleObj := ⟨attrs⟩
  (setAttr sysModules moduleName m, moduleName, m)

def valEnv (fid s : String) : Envelope := { id := some fid, value := some s }

def doneEnv (fid : String) : Envelope := { id := some fid, status := ["done"] }

theorem step_val_future_pending (f : String → ReadResult) (fid s : String) (v : Val)
    (chans : List (String × Chan)) (sink : List SinkEv)
    (hv : f s = .ok v) (hnn : v.isNil = false)
    (hc : lookupKey chans fid = some (.future .pending)) :
    processStep f ⟨chans, sink⟩ (valEnv fid s) =
      .next ⟨setAttr chans fid (.future (.result (.val v))), sink⟩ := by
  simp [processStep, valEnv, hv, hnn, hc, excFlag, valueOf, errFlag, doneFlag,
    hasMainFlag, decodeValueEntry, envNamespace, sinkEvents, deliverFuture,
    finishFuture, futSetResult, futIsDone]

theorem step_val_future_done (f : String → ReadResult) (fid s : String) (v : Val)
    (fst : FutState) (chans : List (String × Chan)) (sink : List SinkEv)
    (hv : f s = .ok v) (hnn : v.isNil = false)
    (hd : futIsDone fst = true)
    (hc : lookupKey chans fid = some (.future fst)) :
    processStep f ⟨chans, sink⟩ (valEnv fid s) = .raised ⟨chans, sink⟩ := by
  cases fst with
  | pending => simp [futIsDone] at hd
  | result r =>
    simp [processStep, valEnv, hv, hnn, hc, excFlag, valueOf, errFlag, doneFlag,
      hasMainFlag, decodeValueEntry, envNamespace, sinkEvents, deliverFuture,
      futSetResult]
  | exc m d =>
    simp [processStep, valEnv, hv, hnn, hc, excFlag, valueOf, errFlag, doneFlag,
      hasMainFlag, decodeValueEntry, envNamespace, sinkEvents, deliverFuture,
      futSetResult]

theorem step_done_future (f : String → ReadResult) (fid : String)
    (fst : FutState) (chans : List (String × Chan)) (sink : List SinkEv)
    (hc : lookupKey chans fid = some (.future fst)) :
    processStep f ⟨chans, sink⟩ (doneEnv fid) =
      .next ⟨setAttr chans fid
        (.future (if futIsDone fst then fst else .result .pynone)), sink⟩ := by
  simp [processStep, doneEnv, hc, excFlag, valueOf, errFlag, doneFlag,
    hasMainFlag, decodeValueEntry, envNamespace, sinkEvents, deliverFuture,
    finishFuture]

theorem step_val_callbacks (f : String → ReadResult) (fid s : String) (v : Val)
    (hs he hd : Bool) (evs : List CbEvent)
    (chans : List (String × Chan)) (sink : List SinkEv)
    (hv : f s = .ok v) (hnn : v.isNil = false)
    (hc : lookupKey chans fid = some (.callbacks hs he hd evs)) :
    processStep f ⟨chans, sink⟩ (valEnv fid s) =
      .next ⟨setAttr chans fid (.callbacks hs he hd
        (if hs then evs ++ [.onSuccess (some v)] else evs)), sink⟩ := by
  cases hs <;>
    simp [processStep, valEnv, hv, hnn, hc, excFlag, valueOf, errFlag, doneFlag,
      hasMainFlag, decodeValueEntry, envNamespace, sinkEvents, deliverCallbacks,
      finishCallbacks]

theorem step_done_callbacks (f : String → ReadResult) (fid : String)
    (hs he hd : Bool) (evs : List CbEvent)
    (chans : List (String × Chan)) (sink : List SinkEv)
    (hc : lookupKey chans fid = some (.callbacks hs he hd evs)) :
    processStep f ⟨chans, sink⟩ (doneEnv fid) =
      .next ⟨setAttr chans fid (.callbacks hs he hd
        (if hd then evs ++ [.onDone] else evs)), sink⟩ := by
  cases hd <;>
    simp [processStep, doneEnv, hc, excFlag, valueOf, errFlag, doneFlag,
      hasMainFlag, decodeValueEntry, envNamespace, sinkEvents, deliverCallbacks,
      finishCallbacks]

theorem step_decode_fail_future_pending (f : String → ReadResult) (fid s : String)
    (chans : List (String × Chan)) (sink : List SinkEv)
    (hv : f s = .fail)
    (hc : lookupKey chans fid = some (.future .pending)) :
    processStep f ⟨chans, sink⟩ (valEnv fid s) =
      .next ⟨setAttr chans fid (.future (.exc "" (.vmap []))), sink⟩ := by
  simp [processStep, valEnv, hv, hc, excFlag, valueOf, errFlag, doneFlag, msgOf,
    dataOf, hasMainFlag, decodeValueEntry, decodeExData, envNamespace, sinkEvents,
    deliverFuture, finishFuture, futSetException, futIsDone, podErrorData, Val.falsy]

theorem step_decode_fail_callbacks (f : String → ReadResult) (fid s : String)
    (hs hd : Bool) (evs : List CbEvent)
    (chans : List (String × Chan)) (sink : List SinkEv)
    (hv : f s = .fail)
    (hc : lookupKey chans fid = some (.callbacks hs true hd evs)) :
    processStep f ⟨chans, sink⟩ (valEnv fid s) =
      .next ⟨setAttr chans fid (.callbacks hs true hd
        (evs ++ [.onError "" (.vmap [])])), sink⟩ := by
  cases hs <;>
    simp [processStep, valEnv, hv, hc, excFlag, valueOf, errFlag, doneFlag, msgOf,
      dataOf, hasMainFlag, decodeValueEntry, decodeExData, envNamespace, sinkEvents,
      deliverCallbacks, finishCallbacks]

theorem deliverFuture_done_some (fst fst1 : FutState) (hasMain error : Bool)
    (value : Option Val) (nspace : Option NsObj) (msg : String) (data : Val)
    (hd : futIsDone fst = true)
    (h : deliverFuture fst hasMain error value nspace msg data = some fst1) :
    fst1 = fst := by
  cases fst with
  | pending => simp [futIsDone] at hd
  | result r =>
    simp only [deliverFuture, futSetResult, futSetException] at h
    repeat' split at h
    all_goals simp_all
  | exc m d =>
    simp only [deliverFuture, futSetResult, futSetException] at h
    repeat' split at h
    all_goals simp_all

theorem step_settled_future_stable (f : String → ReadResult) (st : ProcState)
    (e : Envelope) (i : String) (fst : FutState)
    (hc : lookupKey st.chans i = some (.future fst)) (hd : futIsDone fst = true) :
    lookupKey (processStep f st e).stateOf.chans i = some (.future fst) := by
  obtain ⟨chans, sink⟩ := st
  simp only at hc
  cases he : e.id with
  | none => simpa [processStep, he, StepResult.stateOf] using hc
  | some j =>
    by_cases hij : j = i
    · subst hij
      simp only [processStep, he, hc]
      cases hdel : deliverFuture fst (hasMainFlag f e) (errFlag f e) (valueOf f e)
          (envNamespace e) (msgOf f e) (podErrorData (dataOf f e)) with
      | none => simpa [StepResult.stateOf] using hc
      | some fst1 =>
        have hf := deliverFuture_done_some _ _ _ _ _ _ _ _ hd hdel
        subst hf
        simp [StepResult.stateOf, finishFuture, hd, lookupKey_setAttr_self]
    · simp only [processStep, he]
      split
      · simpa [StepResult.stateOf] using hc
      · rename_i chan heq
        cases chan with
        | future fstj =>
          simp only [StepResult.stateOf]
          cases hdel : deliverFuture fstj (hasMainFlag f e) (errFlag f e) (valueOf f e)
              (envNamespace e) (msgOf f e) (podErrorData (dataOf f e)) with
          | none => simpa [StepResult.stateOf] using hc
          | some fst1 =>
            simp [StepResult.stateOf, lookupKey_setAttr_ne _ _ _ _ (Ne.symm hij), hc]
        | callbacks hs2 he2 hd2 evs2 =>
          simp [StepResult.stateOf, lookupKey_setAttr_ne _ _ _ _ (Ne.symm hij), hc]

def valDoneEnv (fid s : String) : Envelope :=
  { id := some fid, value := some s, status := ["done"] }

def errEnv (fid m : String) : Envelope :=
  { id := some fid, status := ["done", "error"], exMessage := some m }

def outErrEnv (fid o r : String) : Envelope :=
  { id := some fid, out := some o, err := some r }

theorem step_valdone_future_pending (f : String → ReadResult) (fid s : String) (v : Val)
    (chans : List (String × Chan)) (sink : List SinkEv)
    (hv : f s = .ok v) (hnn : v.isNil = false)
    (hc : lookupKey chans fid = some (.future .pending)) :
    processStep f ⟨chans, sink⟩ (valDoneEnv fid s) =
      .next ⟨setAttr chans fid (.future (.result (.val v))), sink⟩ := by
  simp [processStep, valDoneEnv, hv, hnn, hc, excFlag, valueOf, errFlag, doneFlag,
    hasMainFlag, decodeValueEntry, envNamespace, sinkEvents, deliverFuture,
    finishFuture, futSetResult, futIsDone]

theorem step_err_future_pending (f : String → ReadResult) (fid m : String)
    (chans : List (String × Chan)) (sink : List SinkEv)
    (hc : lookupKey chans fid = some (.future .pending)) :
    processStep f ⟨chans, sink⟩ (errEnv fid m) =
      .next ⟨setAttr chans fid (.future (.exc m (.vmap []))), sink⟩ := by
  simp [processStep, errEnv, hc, excFlag, valueOf, errFlag, doneFlag, msgOf, dataOf,
    hasMainFlag, decodeValueEntry, decodeExData, envNamespace, sinkEvents,
    deliverFuture, finishFuture, futSetException, futIsDone, podErrorData, Val.falsy]

theorem step_err_future_done (f : String → ReadResult) (fid m : String)
    (fst : FutState) (chans : List (String × Chan)) (sink : List SinkEv)
    (hd : futIsDone fst = true)
    (hc : lookupKey chans fid = some (.future fst)) :
    processStep f ⟨chans, sink⟩ (errEnv fid m) = .raised ⟨chans, sink⟩ := by
  cases fst with
  | pending => simp [futIsDone] at hd
  | result r =>
    simp [processStep, errEnv, hc, excFlag, valueOf, errFlag, doneFlag, msgOf, dataOf,
      hasMainFlag, decodeValueEntry, decodeExData, envNamespace, sinkEvents,
      deliverFuture, futSetException]
  | exc m2 d2 =>
    simp [processStep, errEnv, hc, excFlag, valueOf, errFlag, doneFlag, msgOf, dataOf,
      hasMainFlag, decodeValueEntry, decodeExData, envNamespace, sinkEvents,
      deliverFuture, futSetException]

theorem step_unknown_id (f : String → ReadResult) (st : ProcState) (e : Envelope)
    (h : e.id = none ∨ ∀ i, e.id = some i → lookupKey st.chans i = none) :
    processStep f st e = .next st := by
  cases he : e.id with
  | none => simp [processStep, he]
  | some i =>
    rcases h with h | h
    · rw [he] at h
      cases h
    · simp [processStep, he, h i he]

theorem step_outerr_known (f : String → ReadResult) (fid o r : String) (chan : Chan)
    (chans : List (String × Chan)) (sink : List SinkEv)
    (hc : lookupKey chans fid = some chan) (ho : o ≠ "") (hr : r ≠ "") :
    processStep f ⟨chans, sink⟩ (outErrEnv fid o r) =
      .next ⟨chans, sink ++ [.outWrite o, .outFlush, .errWrite r, .errFlush]⟩ := by
  cases chan with
  | future fst =>
    simp [processStep, outErrEnv, hc, excFlag, valueOf, errFlag, doneFlag,
      hasMainFlag, decodeValueEntry, envNamespace, sinkEvents, deliverFuture,
      finishFuture, ho, hr, setAttr_self_of_lookup _ _ _ hc]
  | callbacks hs he hd evs =>
    simp [processStep, outErrEnv, hc, excFlag, valueOf, errFlag, doneFlag,
      hasMainFlag, decodeValueEntry, envNamespace, sinkEvents, deliverCallbacks,
      finishCallbacks, ho, hr, setAttr_self_of_lookup _ _ _ hc]

theorem step_done_future_settled_noop (f : String → ReadResult) (fid : String)
    (fst : FutState) (chans : List (String × Chan)) (sink : List SinkEv)
    (hd : futIsDone fst = true)
    (hc : lookupKey chans fid = some (.future fst)) :
    processStep f ⟨chans, sink⟩ (doneEnv fid) = .next ⟨chans, sink⟩ := by
  rw [step_done_future f fid fst chans sink hc, hd]
  simp [setAttr_self_of_lookup _ _ _ hc]

theorem cb_stream_run (f : String → ReadResult) (fid : String) (he : Bool) :
    ∀ (vs : List (String × Val)) (evs : List CbEvent) (sink : List SinkEv),
      (∀ p ∈ vs, f p.1 = .ok p.2 ∧ p.2.isNil = false) →
      processLoop f ⟨[(fid, .callbacks true he true evs)], sink⟩
          (vs.map (fun p => valEnv fid p.1) ++ [doneEnv fid]) =
        ⟨⟨[(fid, .callbacks true he true
            ((evs ++ vs.map (fun p => .onSuccess (some p.2))) ++ [.onDone]))], sink⟩,
          false⟩
  | [], evs, sink, hvs => by
      have hc : lookupKey [(fid, Chan.callbacks true he true evs)] fid =
          some (.callbacks true he true evs) := by simp [lookupKey]
      have hstep := step_done_callbacks f fid true he true evs _ sink hc
      simp [processLoop, hstep, setAttr]
  | (s, v) :: rest, evs, sink, hvs => by
      obtain ⟨hv, hnn⟩ := hvs (s, v) (List.mem_cons_self _ _)
      have hc : lookupKey [(fid, Chan.callbacks true he true evs)] fid =
          some (.callbacks true he true evs) := by simp [lookupKey]
      have hstep := step_val_callbacks f fid s v true he true evs _ sink hv hnn hc
      have ih := cb_stream_run f fid he rest (evs ++ [.onSuccess (some v)]) sink
        (fun p hp => hvs p (List.mem_cons_of_mem _ hp))
      simp [processLoop, hstep, setAttr, ih]

theorem future_two_values_crash (f : String → ReadResult) (fid s1 s2 : String)
    (v1 v2 : Val) (sink : List SinkEv) (more : List Envelope)
    (h1 : f s1 = .ok v1) (hn1 : v1.isNil = false)
    (h2 : f s2 = .ok v2) (hn2 : v2.isNil = false) :
    processLoop f ⟨[(fid, .future .pending)], sink⟩
        (valEnv fid s1 :: valEnv fid s2 :: more) =
      ⟨⟨[(fid, .future (.result (.val v1)))], sink⟩, true⟩ := by
  have hc1 : lookupKey [(fid, Chan.future .pending)] fid =
      some (.future .pending) := by simp [lookupKey]
  have hstep1 := step_val_future_pending f fid s1 v1 _ sink h1 hn1 hc1
  have hc2 : lookupKey [(fid, Chan.future (.result (.val v1)))] fid =
      some (.future (.result (.val v1))) := by simp [lookupKey]
  have hstep2 := step_val_future_done f fid s2 v2 (.result (.val v1)) _ sink h2 hn2
    (by simp [futIsDone]) hc2
  simp [processLoop, hstep1, setAttr]
  simp [processLoop, hstep2]

/-- C1 counterexample: a terminal value reply for correlation id c1 settles
the registered future, but the id is still present in chans afterwards with
the settled future, refuting the claim that the id is removed from chans
after the terminal reply is processed. -/
theorem invoke_id_removed_cex :
    processStep (fun _ => ReadResult.ok (.vint 6))
        ⟨[("c1", .future .pending)], []⟩ (valDoneEnv "c1" "6") =
      .next ⟨[("c1", .future (.result (.val (.vint 6))))], []⟩
    ∧ lookupKey [("c1", Chan.future (.result (.val (.vint 6))))] "c1" ≠ none := by
  constructor
  · rfl
  · simp [lookupKey]

/-- C1 (amended): for an invoke registering a pending future under a fresh
correlation id, the terminal reply settles the waiter exactly once with a
value (value plus done status) or an error (error status), but the
correlation id is never removed from chans: it stays mapped to the settled
future, and any later envelope leaves a settled future unchanged, so there
is no second settlement. -/
theorem invoke_waiter_settles_and_id_kept
    (f : String → ReadResult) (chans : List (String × Chan)) (fid : String)
    (hfresh : lookupKey chans fid = none)
    (s : String) (v : Val) (hv : f s = .ok v) (hnn : v.isNil = false)
    (m : String) :
    (processStep f ⟨(invokeRegister chans fid none).1, []⟩ (valDoneEnv fid s) =
        .next ⟨setAttr chans fid (.future (.result (.val v))), []⟩
      ∧ lookupKey (setAttr chans fid (.future (.result (.val v)))) fid =
          some (.future (.result (.val v))))
    ∧ (processStep f ⟨(invokeRegister chans fid none).1, []⟩ (errEnv fid m) =
        .next ⟨setAttr chans fid (.future (.exc m (.vmap []))), []⟩
      ∧ lookupKey (setAttr chans fid (.future (.exc m (.vmap [])))) fid =
          some (.future (.exc m (.vmap []))))
    ∧ (∀ (st : ProcState) (e : Envelope) (i : String) (fst : FutState),
        lookupKey st.chans i = some (.future fst) → futIsDone fst = true →
        lookupKey (processStep f st e).stateOf.chans i = some (.future fst)) := by
  have hreg : lookupKey (invokeRegister chans fid none).1 fid =
      some (.future .pending) := by
    simp [invokeRegister, lookupKey_setAttr_self]
  refine ⟨⟨?_, lookupKey_setAttr_self _ _ _⟩, ⟨?_, lookupKey_setAttr_self _ _ _⟩, ?_⟩
  · have h := step_valdone_future_pending f fid s v (invokeRegister chans fid none).1
      [] hv hnn hreg
    rw [h]
    simp [invokeRegister, setAttr_setAttr_self]
  · have h := step_err_future_pending f fid m (invokeRegister chans fid none).1 [] hreg
    rw [h]
    simp [invokeRegister, setAttr_setAttr_self]
  · intro st e i fst hc hd
    exact step_settled_future_stable f st e i fst hc hd

/-- C1 witness: the amended theorem applied at a concrete codec, registry
and terminal reply. -/
theorem invoke_waiter_settles_and_id_kept_wit :
    (processStep (fun _ => ReadResult.ok (.vint 6))
        ⟨(invokeRegister [] "c1" none).1, []⟩ (valDoneEnv "c1" "6") =
      .next ⟨setAttr [] "c1" (.future (.result (.val (.vint 6)))), []⟩)
    ∧ lookupKey (processStep (fun _ => ReadResult.ok (.vint 6))
        ⟨[("z", .future (.result .pynone))], []⟩ (doneEnv "z")).stateOf.chans "z" =
      some (.future (.result .pynone)) := by
  have h := invoke_waiter_settles_and_id_kept (fun _ => ReadResult.ok (.vint 6))
    [] "c1" rfl "6" (.vint 6) rfl rfl "boom"
  exact ⟨h.1.1, h.2.2 ⟨[("z", .future (.result .pynone))], []⟩ (doneEnv "z") "z"
    (.result .pynone) rfl rfl⟩

/-- C2 counterexample: a future waiter receives the first streamed value,
but the second value envelope for the same id raises InvalidStateError and
the processor loop terminates (crashed is true), refuting the claim that
subsequent value envelopes are discarded with the processor continuing. -/
theorem streaming_future_crash_cex :
    processLoop (fun s => ReadResult.ok (.vstr s)) ⟨[("c", .future .pending)], []⟩
        [valEnv "c" "a", valEnv "c" "b", doneEnv "c"] =
      ⟨⟨[("c", .future (.result (.val (.vstr "a"))))], []⟩, true⟩ := by
  rfl

/-- C2 (amended): when a pod emits N value envelopes then a done envelope
for one correlation id, a callback waiter with all three handlers receives
exactly N on-success calls in arrival order followed by one on-done call;
a future waiter receives the first value, but a second value envelope for
that id raises InvalidStateError and terminates the processor loop, so the
remaining envelopes are not processed (they are not silently discarded). -/
theorem streaming_delivery_amended (f : String → ReadResult) (fid : String)
    (he : Bool) (vs : List (String × Val))
    (hvs : ∀ p ∈ vs, f p.1 = .ok p.2 ∧ p.2.isNil = false) :
    processLoop f ⟨[(fid, .callbacks true he true [])], []⟩
        (vs.map (fun p => valEnv fid p.1) ++ [doneEnv fid]) =
      ⟨⟨[(fid, .callbacks true he true
          (vs.map (fun p => .onSuccess (some p.2)) ++ [.onDone]))], []⟩, false⟩
    ∧ (∀ s1 v1 s2 v2 rest2, vs = (s1, v1) :: (s2, v2) :: rest2 →
        processLoop f ⟨[(fid, .future .pending)], []⟩
            (vs.map (fun p => valEnv fid p.1) ++ [doneEnv fid]) =
          ⟨⟨[(fid, .future (.result (.val v1)))], []⟩, true⟩) := by
  constructor
  · have h := cb_stream_run f fid he vs [] [] hvs
    simpa using h
  · intro s1 v1 s2 v2 rest2 hvseq
    subst hvseq
    obtain ⟨h1, hn1⟩ := hvs (s1, v1) (by simp)
    obtain ⟨h2, hn2⟩ := hvs (s2, v2) (by simp)
    simpa using future_two_values_crash f fid s1 s2 v1 v2 []
      (List.map (fun p => valEnv fid p.1) rest2 ++ [doneEnv fid]) h1 hn1 h2 hn2

/-- C2 witness: the amended theorem applied to a two value stream with a
concrete codec, for both waiter kinds. -/
theorem streaming_delivery_amended_wit :
    processLoop (fun s => ReadResult.ok (.vstr s))
        ⟨[("c", .callbacks true true true [])], []⟩
        ([("1", Val.vstr "1"), ("2", Val.vstr "2")].map
          (fun p => valEnv "c" p.1) ++ [doneEnv "c"]) =
      ⟨⟨[("c", .callbacks true true true
          ([("1", Val.vstr "1"), ("2", Val.vstr "2")].map
            (fun p => .onSuccess (some p.2)) ++ [.onDone]))], []⟩, false⟩
    ∧ processLoop (fun s => ReadResult.ok (.vstr s)) ⟨[("c", .future .pending)], []⟩
        ([("1", Val.vstr "1"), ("2", Val.vstr "2")].map
          (fun p => valEnv "c" p.1) ++ [doneEnv "c"]) =
      ⟨⟨[("c", .future (.result (.val (.vstr "1"))))], []⟩, true⟩ := by
  have hvs : ∀ p ∈ [("1", Val.vstr "1"), ("2", Val.vstr "2")],
      (fun s => ReadResult.ok (.vstr s)) p.1 = .ok p.2 ∧ p.2.isNil = false := by
    intro p hp
    simp [List.mem_cons] at hp
    rcases hp with rfl | rfl <;> exact ⟨rfl, rfl⟩
  have h := streaming_delivery_amended (fun s => ReadResult.ok (.vstr s)) "c" true
    [("1", Val.vstr "1"), ("2", Val.vstr "2")] hvs
  exact ⟨h.1, h.2 "1" (Val.vstr "1") "2" (Val.vstr "2") [] rfl⟩

/-- C6: a payload decode failure on a value envelope fails the registered
waiter with an error (for a future, a PodError with the ex-message and
ex-data of the envelope, empty here; for a handlers dict, the error
handler), and the processor loop keeps running: processing the stream
continues exactly as the loop would from the post-failure state. -/
theorem codec_error_nonfatal (f : String → ReadResult) (fid s : String)
    (hfail : f s = .fail) :
    (∀ (sink : List SinkEv) (rest : List Envelope),
      processLoop f ⟨[(fid, .future .pending)], sink⟩ (valEnv fid s :: rest) =
        processLoop f ⟨[(fid, .future (.exc "" (.vmap [])))], sink⟩ rest)
    ∧ (∀ (sink : List SinkEv) (rest : List Envelope) (hs hd : Bool)
        (evs : List CbEvent),
      processLoop f ⟨[(fid, .callbacks hs true hd evs)], sink⟩ (valEnv fid s :: rest) =
        processLoop f ⟨[(fid, .callbacks hs true hd
          (evs ++ [.onError "" (.vmap [])]))], sink⟩ rest) := by
  constructor
  · intro sink rest
    have hc : lookupKey [(fid, Chan.future .pending)] fid =
        some (.future .pending) := by simp [lookupKey]
    have hstep := step_decode_fail_future_pending f fid s _ sink hfail hc
    simp [processLoop, hstep, setAttr]
  · intro sink rest hs hd evs
    have hc : lookupKey [(fid, Chan.callbacks hs true hd evs)] fid =
        some (.callbacks hs true hd evs) := by simp [lookupKey]
    have hstep := step_decode_fail_callbacks f fid s hs hd evs _ sink hfail hc
    simp [processLoop, hstep, setAttr]

/-- C6 witness: the theorem applied at a codec that always fails, showing
the future settles with the error and a later done envelope is still
processed by the continuing loop. -/
theorem codec_error_nonfatal_wit :
    processLoop (fun _ => ReadResult.fail) ⟨[("c", .future .pending)], []⟩
        [valEnv "c" "bad", doneEnv "c"] =
      processLoop (fun _ => ReadResult.fail)
        ⟨[("c", .future (.exc "" (.vmap [])))], []⟩ [doneEnv "c"] := by
  exact (codec_error_nonfatal (fun _ => ReadResult.fail) "c" "bad" rfl).1 []
    [doneEnv "c"]

/-- C7 counterexample: a second resolve on an already settled future is not
a no-op: the processor iteration raises InvalidStateError (the step result
is raised and the loop terminates), refuting the claim that subsequent
resolve or fail operations are no-ops. -/
theorem future_second_resolve_raises_cex :
    processStep (fun _ => ReadResult.ok (.vint 2))
        ⟨[("c", .future (.result (.val (.vint 1))))], []⟩ (valEnv "c" "2") =
      .raised ⟨[("c", .future (.result (.val (.vint 1))))], []⟩ := by
  rfl

/-- C7 (amended): for a future waiter the first resolve or fail wins; a
subsequent note-done (done envelope) is a no-op, but a subsequent resolve
(value envelope) or fail (error envelope) raises InvalidStateError and
terminates the processor iteration instead of being a no-op; a done
envelope without any prior value or error settles the future with None. -/
theorem future_settle_once_amended (f : String → ReadResult) (fid : String)
    (fst : FutState) (chans : List (String × Chan)) (sink : List SinkEv)
    (hd : futIsDone fst = true)
    (hc : lookupKey chans fid = some (.future fst)) :
    processStep f ⟨chans, sink⟩ (doneEnv fid) = .next ⟨chans, sink⟩
    ∧ (∀ s v, f s = .ok v → v.isNil = false →
        processStep f ⟨chans, sink⟩ (valEnv fid s) = .raised ⟨chans, sink⟩)
    ∧ (∀ m, processStep f ⟨chans, sink⟩ (errEnv fid m) = .raised ⟨chans, sink⟩)
    ∧ (∀ chans2 : List (String × Chan),
        lookupKey chans2 fid = some (.future .pending) →
        processStep f ⟨chans2, sink⟩ (doneEnv fid) =
          .next ⟨setAttr chans2 fid (.future (.result .pynone)), sink⟩) := by
  refine ⟨step_done_future_settled_noop f fid fst chans sink hd hc, ?_, ?_, ?_⟩
  · intro s v hv hnn
    exact step_val_future_done f fid s v fst chans sink hv hnn hd hc
  · intro m
    exact step_err_future_done f fid m fst chans sink hd hc
  · intro chans2 hc2
    have h := step_done_future f fid .pending chans2 sink hc2
    simpa [futIsDone] using h

/-- C7 witness: the amended theorem applied to a settled and a pending
future at concrete inputs. -/
theorem future_settle_once_amended_wit :
    processStep (fun _ => ReadResult.ok (.vint 2))
        ⟨[("c", .future (.result (.val (.vint 1))))], []⟩ (doneEnv "c") =
      .next ⟨[("c", .future (.result (.val (.vint 1))))], []⟩
    ∧ processStep (fun _ => ReadResult.ok (.vint 2))
        ⟨[("c", .future (.result (.val (.vint 1))))], []⟩ (errEnv "c" "boom") =
      .raised ⟨[("c", .future (.result (.val (.vint 1))))], []⟩
    ∧ processStep (fun _ => ReadResult.ok (.vint 2))
        ⟨[("p", .future .pending)], []⟩ (doneEnv "p") =
      .next ⟨setAttr [("p", .future .pending)] "p" (.future (.result .pynone)), []⟩ := by
  have h := future_settle_once_amended (fun _ => ReadResult.ok (.vint 2)) "c"
    (.result (.val (.vint 1))) [("c", .future (.result (.val (.vint 1))))] [] rfl rfl
  have h2 := future_settle_once_amended (fun _ => ReadResult.ok (.vint 2)) "p"
    (.result .pynone) [("p", .future (.result .pynone))] [] rfl rfl
  exact ⟨h.1, h.2.2.1 "boom", h2.2.2.2 [("p", .future .pending)] rfl⟩

/- A concrete registered pod with one pending waiter, used to exercise
   destroy. -/
def samplePod : PodObj :=
  { podId := "P", chans := [("c1", .future .pending)], ops := ["shutdown"],
    namespaces := ["ns.a"], hasRemoveNs := true }

/-- C3 counterexample: destroying a registered pod whose chans holds a
pending waiter removes the pod from the registry but leaves the waiter
pending: the pod object after destroy still maps the correlation id to a
pending future, refuting the claim that every still-pending waiter settles
with a pod-terminated error. -/
theorem destroy_waiters_unsettled_cex :
    (destroy [("P", samplePod)] (.byId "P")).podAfter = some samplePod
    ∧ samplePod.chans = [("c1", .future .pending)]
    ∧ lookupKey samplePod.chans "c1" = some (.future .pending) := by
  refine ⟨rfl, rfl, ?_⟩
  simp [samplePod, lookupKey]

/-- C3 (amended): after destroy of a registered pod id the pod is removed
from the registry (lookup is absent) and a second destroy of the same id is
a no-op, but the pod object and its chans are untouched: no pending waiter
is settled with a pod-terminated error; every registered waiter is exactly
as before the destroy. -/
theorem destroy_registry_amended (reg : List (String × PodObj)) (pid : String)
    (pod : PodObj) (hreg : lookupKey reg pid = some pod) :
    lookupKey (destroy reg (.byId pid)).registry pid = none
    ∧ (destroy reg (.byId pid)).podAfter = some pod
    ∧ destroy (destroy reg (.byId pid)).registry (.byId pid) =
        ⟨(destroy reg (.byId pid)).registry, [], none⟩ := by
  have h1 : destroy reg (.byId pid) =
      ⟨removeKey reg pid,
        .unregisterModules pid :: destroyPodActions pod ++
          (if pod.hasRemoveNs then pod.namespaces.map .removeNs else []),
        some pod⟩ := by
    simp [destroy, getPodIdFromSpec, hreg, popPod]
  refine ⟨?_, ?_, ?_⟩
  · rw [h1]
    exact lookupKey_removeKey_self reg pid
  · rw [h1]
  · rw [h1]
    simp [destroy, getPodIdFromSpec, lookupKey_removeKey_self, popPod,
      removeKey_of_lookup_none _ _ (lookupKey_removeKey_self reg pid)]

/-- C3 witness: the amended theorem applied to a one pod registry holding a
pending waiter. -/
theorem destroy_registry_amended_wit :
    lookupKey (destroy [("P", samplePod)] (.byId "P")).registry "P" = none
    ∧ (destroy [("P", samplePod)] (.byId "P")).podAfter = some samplePod := by
  have h := destroy_registry_amended [("P", samplePod)] "P" samplePod
    (by simp [lookupKey])
  exact ⟨h.1, h.2.1⟩

/-- C4 counterexample: an envelope with no id (and one with an unknown id)
carrying a non-empty out field is discarded entirely: no out write reaches
the sink, refuting the claim that out and err fields are still forwarded
for envelopes whose id is absent or unknown. -/
theorem unknown_id_out_dropped_cex :
    processStep (fun s => ReadResult.ok (.vstr s)) ⟨[], []⟩
        ({ out := some "boom" } : Envelope) = .next ⟨[], []⟩
    ∧ processStep (fun s => ReadResult.ok (.vstr s)) ⟨[], []⟩
        ({ id := some "c9", out := some "boom" } : Envelope) = .next ⟨[], []⟩ := by
  exact ⟨rfl, rfl⟩

/-- C4 (amended): an envelope whose id is absent or not registered in chans
is discarded without any effect at all; in particular its out and err
fields are NOT forwarded. Forwarding of non-empty out and err fields, each
followed by a flush, happens only for envelopes whose id is registered. -/
theorem unknown_id_discard_amended (f : String → ReadResult) :
    (∀ (st : ProcState) (e : Envelope),
      (e.id = none ∨ ∀ i, e.id = some i → lookupKey st.chans i = none) →
      processStep f st e = .next st)
    ∧ (∀ (fid o r : String) (chan : Chan) (chans : List (String × Chan))
        (sink : List SinkEv),
      lookupKey chans fid = some chan → o ≠ "" → r ≠ "" →
      processStep f ⟨chans, sink⟩ (outErrEnv fid o r) =
        .next ⟨chans, sink ++ [.outWrite o, .outFlush, .errWrite r, .errFlush]⟩) := by
  exact ⟨fun st e h => step_unknown_id f st e h,
    fun fid o r chan chans sink hc ho hr =>
      step_outerr_known f fid o r chan chans sink hc ho hr⟩

/-- C4 witness: the amended theorem applied to an unknown id envelope and a
registered id envelope with concrete out and err payloads. -/
theorem unknown_id_discard_amended_wit :
    processStep (fun s => ReadResult.ok (.vstr s)) ⟨[("k", .future .pending)], []⟩
        ({ id := some "zz", out := some "x" } : Envelope) =
      .next ⟨[("k", .future .pending)], []⟩
    ∧ processStep (fun s => ReadResult.ok (.vstr s)) ⟨[("k", .future .pending)], []⟩
        (outErrEnv "k" "hello" "oops") =
      .next ⟨[("k", .future .pending)],
        [.outWrite "hello", .outFlush, .errWrite "oops", .errFlush]⟩ := by
  have h := unknown_id_discard_amended (fun s => ReadResult.ok (.vstr s))
  refine ⟨h.1 ⟨[("k", .future .pending)], []⟩ _ (.inr ?_), ?_⟩
  · intro i hi
    cases hi
    simp [lookupKey]
  · have := h.2 "k" "hello" "oops" (.future .pending) [("k", .future .pending)] []
      (by simp [lookupKey]) (by simp) (by simp)
    simpa using this

/-- C5 counterexample: with the port file never appearing (the child exited
without writing a port), fifty polls of the read-port loop produce neither
a port nor any failure: the loop is still spinning, refuting the claim that
load-pod terminates with a handshake error in this situation. -/
theorem read_port_no_failure_cex :
    readPortFuel 50 (fun _ => none) = none := by
  rfl

/-- C5 (amended): read-port polls the port file forever with no check of
child liveness and no error exit: over any poll sequence in which the file
never appears, the loop is still spinning after any number of iterations,
so load-pod never fails with a handshake error and never reaps the child;
it hangs. -/
theorem read_port_polls_forever (polls : Nat → Option String)
    (hnever : ∀ k, polls k = none) (fuel : Nat) :
    readPortFuel fuel polls = none := by
  induction fuel generalizing polls with
  | zero => rfl
  | succ n ih =>
    simp [readPortFuel, hnever 0, readPortStep]
    exact ih _ (fun k => hnever (k + 1))

/-- C5 witness: the amended theorem applied to the constant absent poll
sequence at a concrete fuel. -/
theorem read_port_polls_forever_wit :
    readPortFuel 7 (fun _ => none) = none :=
  read_port_polls_forever (fun _ => none) (fun _ => rfl) 7

/-- C8 counterexample: a describe reply advertising one namespace whose
name is the empty string yields the fresh uuid as pod id, not the first
namespace name, refuting the claim that the pod id is computed from the
first namespace name whenever at least one namespace is advertised. -/
theorem pod_id_empty_name_cex :
    computePodId [⟨some "", [], none⟩] "uuid-1234" = "uuid-1234"
    ∧ ("uuid-1234" : String) ≠ "" := by
  constructor
  · rfl
  · simp

/-- C8 (amended): the pod id is the first namespace name only when the
namespaces list is nonempty and that name is present and nonempty;
otherwise (no namespaces, or a missing or empty first name) the pod id is
the fresh uuid. -/
theorem pod_id_computation_amended (nss : List NsRaw) (freshUuid : String) :
    (nss = [] → computePodId nss freshUuid = freshUuid)
    ∧ (∀ ns rest, nss = ns :: rest → (ns.name = none ∨ ns.name = some "") →
        computePodId nss freshUuid = freshUuid)
    ∧ (∀ ns rest n, nss = ns :: rest → ns.name = some n → n ≠ "" →
        computePodId nss freshUuid = n) := by
  refine ⟨?_, ?_, ?_⟩
  · intro h
    subst h
    rfl
  · intro ns rest h hname
    subst h
    rcases hname with h | h <;> simp [computePodId, h]
  · intro ns rest n h hname hne
    subst h
    simp [computePodId, hname, hne]

/-- C8 witness: the amended theorem applied to a reply with a nonempty
first namespace name and to an empty namespaces list. -/
theorem pod_id_computation_amended_wit :
    computePodId [⟨some "pod.test-pod", [], none⟩] "u-1" = "pod.test-pod"
    ∧ computePodId [] "u-2" = "u-2" := by
  exact ⟨(pod_id_computation_amended [⟨some "pod.test-pod", [], none⟩] "u-1").2.2
      ⟨some "pod.test-pod", [], none⟩ [] "pod.test-pod" rfl rfl (by simp),
    (pod_id_computation_amended [] "u-2").1 rfl⟩

/-- C9: destroy called with the pod dict returned by load-pod is a silent
no-op: the pod id is read from the pod-slash-id key, which the load-pod
dict literal never sets, so the lookup fails, the registry is unchanged and
no shutdown, terminate, module-unregister or remove-ns action is taken;
destruction only takes effect when destroy is given the pod id string, in
which case the id disappears from the registry. -/
theorem destroy_pod_dict_noop (reg : List (String × PodObj)) (podId : String)
    (chans : List (String × Chan)) (ops : List String) (namespaces : List String)
    (hasRemoveNs : Bool) :
    destroy reg (.byDict (mkLoadPodObj podId chans ops namespaces hasRemoveNs)) =
      ⟨reg, [], none⟩
    ∧ (∀ pid pod, lookupKey reg pid = some pod →
        lookupKey (destroy reg (.byId pid)).registry pid = none) := by
  constructor
  · rfl
  · intro pid pod h
    simp [destroy, getPodIdFromSpec, h, popPod, lookupKey_removeKey_self]

/-- C9 witness: the theorem applied to a concrete registry and the pod dict
of the registered pod. -/
theorem destroy_pod_dict_noop_wit :
    destroy [("pod.x", mkLoadPodObj "pod.x" [] [] [] false)]
        (.byDict (mkLoadPodObj "pod.x" [] [] [] false)) =
      ⟨[("pod.x", mkLoadPodObj "pod.x" [] [] [] false)], [], none⟩
    ∧ lookupKey (destroy [("pod.x", mkLoadPodObj "pod.x" [] [] [] false)]
        (.byId "pod.x")).registry "pod.x" = none := by
  have h := destroy_pod_dict_noop [("pod.x", mkLoadPodObj "pod.x" [] [] [] false)]
    "pod.x" [] [] [] false
  exact ⟨h.1, h.2 "pod.x" (mkLoadPodObj "pod.x" [] [] [] false) (by simp [lookupKey])⟩

/- The attribute map produced by the var binding loop of
   expose_namespace_as_module, starting from given attributes. -/
def bindVars (attrs : List (String × ModAttr)) (vars : List (String × VarImpl)) :
    List (String × ModAttr) :=
  vars.foldl (fun acc p => bindVar acc p.1 p.2) attrs

theorem bindVars_cons (attrs : List (String × ModAttr)) (q : String × VarImpl)
    (rest : List (String × VarImpl)) :
    bindVars attrs (q :: rest) = bindVars (bindVar attrs q.1 q.2) rest := rfl

theorem lookupKey_bindVar_self (attrs : List (String × ModAttr)) (n : String)
    (f : VarImpl) :
    lookupKey (bindVar attrs n f) n = some (.varAttr f)
    ∧ lookupKey (bindVar attrs n f) (pythonName n) = some (.varAttr f) := by
  unfold bindVar
  by_cases h : pythonName n = n
  · simp [h, lookupKey_setAttr_self]
  · constructor
    · simp [h, lookupKey_setAttr_ne _ _ _ _ (Ne.symm h), lookupKey_setAttr_self]
    · simp [h, lookupKey_setAttr_self]

theorem lookupKey_bindVar_other (attrs : List (String × ModAttr)) (n a : String)
    (f : VarImpl) (h1 : n ≠ a) (h2 : pythonName n ≠ a) :
    lookupKey (bindVar attrs n f) a = lookupKey attrs a := by
  unfold bindVar
  by_cases h : pythonName n = n
  · simp [h, lookupKey_setAttr_ne _ _ _ _ (Ne.symm h1)]
  · simp [h, lookupKey_setAttr_ne _ _ _ _ (Ne.symm h2),
      lookupKey_setAttr_ne _ _ _ _ (Ne.symm h1)]

theorem lookupKey_bindVars_untouched :
    ∀ (vars : List (String × VarImpl)) (attrs : List (String × ModAttr)) (a : String),
      (∀ p ∈ vars, p.1 ≠ a ∧ pythonName p.1 ≠ a) →
      lookupKey (bindVars attrs vars) a = lookupKey attrs a
  | [], _, _, _ => rfl
  | q :: rest, attrs, a, h => by
      have hq := h q (List.mem_cons_self _ _)
      rw [bindVars_cons]
      rw [lookupKey_bindVars_untouched rest (bindVar attrs q.1 q.2) a
        (fun p hp => h p (List.mem_cons_of_mem _ hp))]
      exact lookupKey_bindVar_other attrs q.1 a q.2 hq.1 hq.2

/- The no collision condition the source silently assumes: no two distinct
   vars of one namespace write a common attribute name, neither directly
   nor through the underscore alias. -/
def distinctBindings (vars : List (String × VarImpl)) : Prop :=
  List.Pairwise (fun p q => p.1 ≠ q.1 ∧ p.1 ≠ pythonName q.1 ∧
    pythonName p.1 ≠ q.1 ∧ pythonName p.1 ≠ pythonName q.1) vars

theorem lookupKey_bindVars_binds :
    ∀ (vars : List (String × VarImpl)) (attrs : List (String × ModAttr)),
      distinctBindings vars → ∀ p ∈ vars,
      lookupKey (bindVars attrs vars) p.1 = some (.varAttr p.2)
      ∧ lookupKey (bindVars attrs vars) (pythonName p.1) = some (.varAttr p.2)
  | q :: rest, attrs, hdist, p, hp => by
      rw [bindVars_cons]
      rcases List.mem_cons.mp hp with rfl | hmem
      · have hq := (List.pairwise_cons.mp hdist).1
        constructor
        · rw [lookupKey_bindVars_untouched rest (bindVar attrs p.1 p.2) p.1
            (fun r hr => ⟨Ne.symm (hq r hr).1, Ne.symm (hq r hr).2.1⟩)]
          exact (lookupKey_bindVar_self attrs p.1 p.2).1
        · rw [lookupKey_bindVars_untouched rest (bindVar attrs p.1 p.2) (pythonName p.1)
            (fun r hr => ⟨Ne.symm (hq r hr).2.2.1, Ne.symm (hq r hr).2.2.2⟩)]
          exact (lookupKey_bindVar_self attrs p.1 p.2).2
      · exact lookupKey_bindVars_binds rest (bindVar attrs q.1 q.2)
          (List.pairwise_cons.mp hdist).2 p hmem

/-- C10 counterexample: two vars of one namespace whose names collide after
the hyphen to underscore aliasing: iterating in dict order, the alias write
of the var a-b overwrites the original name binding of the var a_b, so the
var a_b is no longer bound to its own function under its original name,
refuting the claim that each var is bound under both of its names. -/
theorem alias_collision_cex :
    lookupKey (exposeNamespaceAsModule [] "P" "my.ns"
        [("a_b", .code "g"), ("a-b", .code "f")]).2.2.attrs "a_b" =
      some (.varAttr (.code "f"))
    ∧ some (ModAttr.varAttr (.code "f")) ≠ some (ModAttr.varAttr (.code "g")) := by
  exact ⟨rfl, by decide⟩

/-- C10 (amended): for every namespace handed to
expose_namespace_as_module, a module is registered in sys.modules under the
namespace name with dots and hyphens replaced by underscores, and, provided
no two vars of the namespace collide on a written attribute name (original
or underscored alias), every var is bound in the module under its original
name and, when different, under its underscored alias; when two vars do
collide, the later write wins (see the counterexample). -/
theorem expose_module_bindings_amended (sysModules : List (String × ModuleObj))
    (podId nsName : String) (nsVars : List (String × VarImpl))
    (hdist : distinctBindings nsVars) :
    lookupKey (exposeNamespaceAsModule sysModules podId nsName nsVars).1
        (namespaceToModuleName nsName) =
      some (exposeNamespaceAsModule sysModules podId nsName nsVars).2.2
    ∧ ∀ p ∈ nsVars,
        lookupKey (exposeNamespaceAsModule sysModules podId nsName nsVars).2.2.attrs
            p.1 = some (.varAttr p.2)
        ∧ lookupKey (exposeNamespaceAsModule sysModules podId nsName nsVars).2.2.attrs
            (pythonName p.1) = some (.varAttr p.2) := by
  constructor
  · simp [exposeNamespaceAsModule, lookupKey_setAttr_self]
  · intro p hp
    exact lookupKey_bindVars_binds nsVars
      (setAttr (setAttr (setAttr [] "__doc__" (.meta ("Pod namespace: " ++ nsName)))
        "__pod_namespace__" (.meta nsName)) "__pod_id__" (.meta podId)) hdist p hp

/-- C10 witness: the amended theorem applied to a namespace with one
kebab-case var and one plain var. -/
theorem expose_module_bindings_amended_wit :
    lookupKey (exposeNamespaceAsModule [] "pod.test-pod" "pod.test-pod"
        [("add-one", .invoker "pod.test-pod/add-one" false none)]).1
        (namespaceToModuleName "pod.test-pod") =
      some (exposeNamespaceAsModule [] "pod.test-pod" "pod.test-pod"
        [("add-one", .invoker "pod.test-pod/add-one" false none)]).2.2
    ∧ lookupKey (exposeNamespaceAsModule [] "pod.test-pod" "pod.test-pod"
        [("add-one", .invoker "pod.test-pod/add-one" false none)]).2.2.attrs
        "add_one" =
      some (.varAttr (.invoker "pod.test-pod/add-one" false none)) := by
  have h := expose_module_bindings_amended [] "pod.test-pod" "pod.test-pod"
    [("add-one", .invoker "pod.test-pod/add-one" false none)]
    (List.pairwise_singleton _ _)
  refine ⟨h.1, ?_⟩
  have h2 := (h.2 ("add-one", .invoker "pod.test-pod/add-one" false none)
    (List.mem_singleton_self _)).2
  simpa using h2
